import Mathlib

/-!
Verification development for the task-tracking program `src/Task_tracker.py`.

The in-memory session table `st.session_state["tasks_df"]` (after schema
normalization) is modelled as a `List Task` of typed rows.  The raw remote
table, as it arrives before normalization, is modelled as a `List RawRow` of
dynamically typed cells (`RawCell`), mirroring the Python/pandas value space
the code manipulates: `None`, float `NaN`, strings, booleans and numbers.
Remote I/O is modelled by explicit outcome values and by flags recording
whether a remote read or write was triggered.
-/

namespace TaskTracker

/-- Decidable equality of `Except` results (used to state I/O outcomes). -/
instance {ε α : Type} [DecidableEq ε] [DecidableEq α] : DecidableEq (Except ε α)
  | .ok a, .ok b =>
    if h : a = b then .isTrue (by rw [h]) else .isFalse (fun hh => by cases hh; exact h rfl)
  | .ok _, .error _ => .isFalse (fun hh => by cases hh)
  | .error _, .ok _ => .isFalse (fun hh => by cases hh)
  | .error e, .error f =>
    if h : e = f then .isTrue (by rw [h]) else .isFalse (fun hh => by cases hh; exact h rfl)

/-- A row of the in-memory task table, as it lives in the session store after
the normalization done by `load_data`: `id` is a string, `completed` and
`was_auto_promoted` are booleans, `created_at` is a string (empty when
missing), `completed_at` is a string or `None`, `custom_sort_index` is a
number. -/
structure Task where
  id : String
  text : String
  priority : String
  completed : Bool
  created_at : String
  completed_at : Option String
  was_auto_promoted : Bool
  custom_sort_index : Int
deriving DecidableEq, Repr

/-- Session-scoped state: the cached table (`"tasks_df" in st.session_state`)
and the once-per-session guard (`"auto_promote_ran" in st.session_state`). -/
structure Session where
  tasks_df : Option (List Task)
  auto_promote_ran : Bool
deriving DecidableEq, Repr

/-- Lexicographic order on char lists by code point: the comparison Python
applies to `str` values (first differing character decides; a strict
character-wise matching short list is smaller). -/
def strLtB : List Char → List Char → Bool
  | [], [] => false
  | [], _ :: _ => true
  | _ :: _, [] => false
  | a :: as, b :: bs => if a < b then true else if b < a then false else strLtB as bs

/-- Python string `<`, as pandas applies it elementwise in
`df["created_at"].str[:10] < today_str`. -/
def pyStrLt (a b : String) : Bool := strLtB a.data b.data

/-- Models `df["custom_sort_index"].max()`, with the `if pd.isna(current_max):
current_max = 0` fallback that fires on an empty table. -/
def maxRank (ts : List Task) : Int :=
  match ts with
  | [] => 0
  | t :: rest => rest.foldl (fun a u => max a u.custom_sort_index) t.custom_sort_index

/-- The boolean mask `mask_promote = (completed == False) & (priority != "High")
& (created_at.str[:10] < today_str) & (created_at.str[:10] != "")`
(line 323). -/
def maskPromote (D : String) (t : Task) : Bool :=
  (t.completed == false) && (t.priority != "High") &&
    pyStrLt (t.created_at.take 10) D && (t.created_at.take 10 != "")

/-- The boolean mask `mask_carried = (completed == False) & (priority == "High")
& (was_auto_promoted == False) & (created_at.str[:10] < today_str)
& (created_at.str[:10] != "")` (line 332). -/
def maskCarried (D : String) (t : Task) : Bool :=
  (t.completed == false) && (t.priority == "High") &&
    (t.was_auto_promoted == false) &&
    pyStrLt (t.created_at.take 10) D && (t.created_at.take 10 != "")

/-- The promote rule of `run_auto_promote` (lines 323-330): if any row matches
`mask_promote`, set `priority = "High"`, `was_auto_promoted = True` and
`custom_sort_index = current_max + 1` on every matching row. -/
def promoteStep (D : String) (ts : List Task) : List Task :=
  if ts.any (maskPromote D) then
    let current_max := maxRank ts
    ts.map (fun t =>
      if maskPromote D t then
        { t with priority := "High", was_auto_promoted := true,
                 custom_sort_index := current_max + 1 }
      else t)
  else ts

/-- The carry-over rule of `run_auto_promote` (lines 332-335): if any row of
the (already promoted) table matches `mask_carried`, set
`was_auto_promoted = True` on every matching row. -/
def carriedStep (D : String) (ts : List Task) : List Task :=
  if ts.any (maskCarried D) then
    ts.map (fun t =>
      if maskCarried D t then { t with was_auto_promoted := true } else t)
  else ts

/-- The policy `run_auto_promote` (lines 313-342), given the date string `D` of the current day.
Returns the updated session together with a flag recording whether
`sync_to_cloud` was invoked (i.e. whether a remote write was triggered). -/
def run_auto_promote (s : Session) (D : String) : Session × Bool :=
  match s.tasks_df with
  | none => (s, false)
  | some df =>
    if s.auto_promote_ran then (s, false)
    else if df.isEmpty then ({ s with auto_promote_ran := true }, false)
    else
      let u1 := df.any (maskPromote D)
      let df1 := promoteStep D df
      let u2 := df1.any (maskCarried D)
      ({ tasks_df := some (carriedStep D df1), auto_promote_ran := true },
       u1 || u2)

/-- Result of a mutation operation: the new store, whether `sync_to_cloud`
was invoked, and the list of warning messages shown to the user. -/
structure OpResult where
  store : List Task
  didSync : Bool
  warnings : List String
deriving DecidableEq, Repr

/-- The operation `toggle_complete(task_id, current_val)` (lines 357-368).  `now` stands for
`str(get_current_time())` at the moment of the call. -/
def toggle_complete (ts : List Task) (task_id : String) (current_val : Bool)
    (now : String) : OpResult :=
  if ts.any (fun t => t.id == task_id) then
    let new_val := !current_val
    { store := ts.map (fun t =>
        if t.id == task_id then
          { t with completed := new_val,
                   completed_at := if new_val then some now else none }
        else t),
      didSync := true, warnings := [] }
  else { store := ts, didSync := false, warnings := [] }

/-- The operation `update_task_details(task_id, new_text, new_priority)` (lines 370-381). -/
def update_task_details (ts : List Task) (task_id new_text new_priority : String) :
    OpResult :=
  if ts.any (fun t => t.id == task_id) then
    { store := ts.map (fun t =>
        if t.id == task_id then
          { t with text := new_text, priority := new_priority,
                   was_auto_promoted := false }
        else t),
      didSync := true, warnings := [] }
  else { store := ts, didSync := false, warnings := [] }

/-- The operation `delete_task(task_id)` (lines 383-390). -/
def delete_task (ts : List Task) (task_id : String) : OpResult :=
  if ts.any (fun t => t.id == task_id) then
    { store := ts.filter (fun t => !(t.id == task_id)),
      didSync := true, warnings := [] }
  else { store := ts, didSync := false, warnings := [] }

/-- One iteration body of the `for rank, item_text in enumerate(sorted_list)`
loop of `handle_sort_change`, on one row: incomplete rows whose text equals
`item_text` get `custom_sort_index = total_items - rank`. -/
def applyItem (total : Int) (rank : Nat) (x : String) (t : Task) : Task :=
  if t.text == x && t.completed == false then
    { t with custom_sort_index := total - (rank : Int) }
  else t

/-- The loop of `handle_sort_change` (lines 396-399), including the
`if mask.any()` guard of the source (assignment to an empty mask is skipped). -/
def sortLoop (total : Int) : Nat → List String → List Task → List Task
  | _, [], ts => ts
  | rank, x :: rest, ts =>
    let ts' := if ts.any (fun t => t.text == x && t.completed == false)
      then ts.map (applyItem total rank x) else ts
    sortLoop total (rank + 1) rest ts'

/-- Guard-free version of `sortLoop`; equal to it (`sortLoop_eq_noGuard`). -/
def sortLoopNG (total : Int) : Nat → List String → List Task → List Task
  | _, [], ts => ts
  | rank, x :: rest, ts =>
    sortLoopNG total (rank + 1) rest (ts.map (applyItem total rank x))

/-- Scalar trace of the `handle_sort_change` loop on a single row. -/
def sortLoop1 (total : Int) : Nat → List String → Task → Task
  | _, [], t => t
  | rank, x :: rest, t => sortLoop1 total (rank + 1) rest (applyItem total rank x t)

/-- The operation `handle_sort_change(sorted_list)` (lines 392-402). -/
def handle_sort_change (ts : List Task) (sorted_list : List String) : OpResult :=
  { store := sortLoop (sorted_list.length : Int) 0 sorted_list ts,
    didSync := true, warnings := [] }

/-- A dynamically typed cell of the raw remote table: Python `None`, float
`NaN` (how pandas represents a missing value in a present column), a string,
a boolean, or an (integral) number.  A column that is absent from the sheet
is represented as all-`pynone` cells, which is exactly what the
`df[col] = None` column-creation step produces. -/
inductive RawCell where
  | pynone : RawCell
  | nan : RawCell
  | str (s : String) : RawCell
  | pybool (b : Bool) : RawCell
  | num (n : Int) : RawCell
deriving DecidableEq, Repr

/-- Python `str(x)`, as `astype(str)` applies it elementwise. -/
def RawCell.pyStr : RawCell → String
  | pynone => "None"
  | nan => "nan"
  | str s => s
  | pybool b => if b then "True" else "False"
  | num n => toString n

/-- Models `pd.isnull` on one cell: `None` and `NaN` are the missing values. -/
def RawCell.isnull : RawCell → Bool
  | pynone => true
  | nan => true
  | _ => false

/-- Python `str.lower()`. -/
def pyLower (s : String) : String := ⟨s.data.map Char.toLower⟩

/-- Digit-string to number (helper for the numeric coercion model). -/
def parseNatDigits (cs : List Char) : Option Nat :=
  if cs ≠ [] ∧ cs.all (fun c => c.isDigit) then
    some (cs.foldl (fun a c => a * 10 + (c.toNat - 48)) 0)
  else none

/-- Numeric parse of a string, integral numerals only (the deployed sort
column holds integral ranks). -/
def pyToNumeric (s : String) : Option Int :=
  match s.data with
  | '-' :: rest => (parseNatDigits rest).map (fun n => -(n : Int))
  | cs => (parseNatDigits cs).map (fun n => (n : Int))

/-- The coercion `clean_bool` (lines 291-294).  A missing value in a present column
arrives from pandas as float `NaN`, hits the `isinstance(x, (int, float))`
branch and is therefore truthy (`bool(float("nan")) == True` in Python);
`None` falls through to the string branch (`str(None).lower() == "none"`). -/
def clean_bool : RawCell → Bool
  | .pybool b => b
  | .num n => n != 0
  | .nan => true
  | c => ["true", "1", "yes"].contains (pyLower c.pyStr)

/-- Models `pd.to_numeric(x, errors="coerce")` on one cell. -/
def to_numeric : RawCell → Option Int
  | .num n => some n
  | .pybool b => some (if b then 1 else 0)
  | .nan => none
  | .pynone => none
  | .str s => pyToNumeric s

/-- A raw row of the remote table, one cell per schema column. -/
structure RawRow where
  id : RawCell
  text : RawCell
  priority : RawCell
  completed : RawCell
  created_at : RawCell
  completed_at : RawCell
  was_auto_promoted : RawCell
  custom_sort_index : RawCell
deriving DecidableEq, Repr

/-- The sort-rank backfill of `load_data` (lines 281-286): a wholly-null
column of a non-empty table gets `range(len(df), 0, -1)`; a partly null
column gets its nulls filled with the column maximum (`0` if that maximum is
itself null). -/
def backfillSort (col : List RawCell) : List RawCell :=
  if col.all (fun c => c.isnull) && !col.isEmpty then
    (List.range col.length).map (fun (i : Nat) => RawCell.num ((col.length : Int) - (i : Int)))
  else if col.any (fun c => c.isnull) then
    let max_val : Int :=
      (((col.filter (fun c => !c.isnull)).filterMap to_numeric).max?).getD 0
    col.map (fun c => if c.isnull then RawCell.num max_val else c)
  else col

/-- The coercion `created_at.astype(str).replace("nan", "")` on one cell (line 298;
`Series.replace` matches whole cell values). -/
def coerce_created_at (c : RawCell) : RawCell :=
  .str (if c.pyStr == "nan" then "" else c.pyStr)

/-- The coercion `completed_at.astype(str).replace("nan", None)` on one cell (line 299). -/
def coerce_completed_at (c : RawCell) : RawCell :=
  if c.pyStr == "nan" then RawCell.pynone else .str c.pyStr

/-- The per-row column coercions of `load_data` (lines 288-299), applied to a
row paired with its backfilled sort cell: `id.astype(str)`,
`to_numeric(custom_sort_index).fillna(0)`, `clean_bool` on the two boolean
columns, and the two timestamp coercions. -/
def normalizeRow (r : RawRow) (sortCell : RawCell) : RawRow :=
  { id := .str r.id.pyStr
    text := r.text
    priority := r.priority
    completed := .pybool (clean_bool r.completed)
    created_at := coerce_created_at r.created_at
    completed_at := coerce_completed_at r.completed_at
    was_auto_promoted := .pybool (clean_bool r.was_auto_promoted)
    custom_sort_index := .num ((to_numeric sortCell).getD 0) }

/-- The schema-normalization step of `load_data` (lines 275-299) on a raw
table: the column-creation step is absorbed into the all-`pynone`
representation of absent columns, then the sort-rank backfill and the column
coercions run. -/
def normalize (rows : List RawRow) : List RawRow :=
  List.zipWith normalizeRow rows
    (backfillSort (rows.map (fun r => r.custom_sort_index)))

/-- Reads a normalized row into the typed view of the session store. -/
def taskOfRow (r : RawRow) : Task :=
  { id := r.id.pyStr
    text := r.text.pyStr
    priority := r.priority.pyStr
    completed := clean_bool r.completed
    created_at := r.created_at.pyStr
    completed_at := if r.completed_at.isnull then none else some r.completed_at.pyStr
    was_auto_promoted := clean_bool r.was_auto_promoted
    custom_sort_index := (to_numeric r.custom_sort_index).getD 0 }

/-- Holds when `needle` starts `hay` (helper for the substring test). -/
def listStartsWith : List Char → List Char → Bool
  | [], _ => true
  | _ :: _, [] => false
  | a :: as, b :: bs => a == b && listStartsWith as bs

/-- Holds when `needle` occurs contiguously in `hay` (helper for the substring test). -/
def listHasInf : List Char → List Char → Bool
  | n, [] => n.isEmpty
  | n, b :: bs => listStartsWith n (b :: bs) || listHasInf n bs

/-- Python `needle in hay` on strings, as the transient-error check uses it. -/
def pyIn (needle hay : String) : Bool := listHasInf needle.data hay.data

/-- The transient-failure signature check of `retry_operation` (line 244):
`any(x in error_str for x in ["429", "RESOURCE_EXHAUSTED", "Quota exceeded",
"500", "503"])`. -/
def is_transient (e : String) : Bool :=
  ["429", "RESOURCE_EXHAUSTED", "Quota exceeded", "500", "503"].any
    (fun x => pyIn x e)

/-- The message of the exception raised after all attempts are exhausted
(line 250). -/
def busyMsg : String := "Server is busy. Please wait a few seconds and reload."

/-- The attempt loop of `retry_operation`: `func i` is the outcome of the
`i`-th call of `func` (`.ok` a value, `.error` the string of the raised
exception), `jitter i` the value `random.uniform(0, 1)` drawn on attempt `i`,
and `fuel` the remaining attempts.  Returns the outcome together with the
list of back-off sleeps performed (`2 ** i + jitter i` before each retry). -/
def retryAux {α : Type} (func : Nat → Except String α) (jitter : Nat → ℚ) :
    Nat → Nat → Except String α × List ℚ
  | _, 0 => (.error busyMsg, [])
  | i, fuel + 1 =>
    match func i with
    | .ok v => (.ok v, [])
    | .error e =>
      if is_transient e then
        let rest := retryAux func jitter (i + 1) fuel
        (rest.1, ((2 : ℚ) ^ i + jitter i) :: rest.2)
      else (.error e, [])

/-- The wrapper `retry_operation(func)` (lines 237-250) with the default `retries=5`. -/
def retry_operation {α : Type} (func : Nat → Except String α)
    (jitter : Nat → ℚ) : Except String α × List ℚ :=
  retryAux func jitter 0 5

/-- The back-off sleeps `2 ** i + jitter i` performed for `k` successive
transient attempts `0, 1, …, k-1`. -/
def sleepList (jitter : Nat → ℚ) (k : Nat) : List ℚ :=
  (List.range k).map (fun i => (2 : ℚ) ^ i + jitter i)

/-- Outcome of the remote read `conn.read(...)` as run through
`retry_operation`: either a raw table (a `None` result is modelled as the
empty table the code substitutes for it), or the string of the raised
exception. -/
inductive ReadResult where
  | ok (rows : List RawRow) : ReadResult
  | err (msg : String) : ReadResult
deriving DecidableEq, Repr

/-- The loader `load_data(force_refresh)` (lines 264-311).  Returns `Except` of the
(session, table) pair — `.error` models the fatal `st.error` + `st.stop`
path — together with two flags recording whether a remote read, resp. a
remote write (the bootstrap `sync_to_cloud`), was triggered. -/
def load_data (s : Session) (force_refresh : Bool) (remote : ReadResult) :
    Except String (Session × List Task) × Bool × Bool :=
  match s.tasks_df, force_refresh with
  | some df, false => (.ok (s, df), false, false)
  | _, _ =>
    match remote with
    | .ok rows =>
      let df := (normalize rows).map taskOfRow
      (.ok ({ s with tasks_df := some df }, df), true, false)
    | .err msg =>
      if pyIn "WorksheetNotFound" msg then
        (.ok ({ s with tasks_df := some [] }, []), true, true)
      else (.error msg, true, false)

/-- A concrete task created yesterday at priority Medium (witness fixture). -/
def w1 : Task := ⟨"1", "buy milk", "Medium", false, "2024-01-01 10:00:00", none, false, 3⟩

/-- A concrete session holding only `w1` (witness fixture). -/
def w1s : Session := ⟨some [w1], false⟩

/-- A concrete task with empty `created_at` (witness fixture). -/
def w7 : Task := ⟨"2", "orphan row", "Low", false, "", none, true, 4⟩

/-- A concrete incomplete task with text `"a"` (sort fixture). -/
def w10 : Task := ⟨"1", "a", "Low", false, "", none, false, 5⟩

/-- A raw row whose `completed_at` is a real timestamp string (fixture). -/
def w4ok : RawRow :=
  ⟨.str "1", .str "t", .str "Low", .pybool false, .str "2024-01-01",
    .str "2024-01-02 08:00:00", .pybool false, .num 1⟩

/-- A raw row whose `completed_at` is a missing value, `NaN` (fixture). -/
def w4nan : RawRow :=
  ⟨.str "1", .str "t", .str "Low", .pybool false, .str "2024-01-01",
    .nan, .pybool false, .num 1⟩

/-! ## Helper lemmas -/

theorem le_foldl_max (l : List Task) (a : Int) :
    a ≤ l.foldl (fun x u => max x u.custom_sort_index) a := by
  induction l generalizing a with
  | nil => exact le_refl a
  | cons u l ih => exact le_trans (le_max_left _ _) (ih (max a u.custom_sort_index))

theorem mem_le_foldl_max (l : List Task) (u : Task) (hu : u ∈ l) (a : Int) :
    u.custom_sort_index ≤ l.foldl (fun x v => max x v.custom_sort_index) a := by
  induction l generalizing a with
  | nil => cases hu
  | cons v l ih =>
    rcases List.mem_cons.mp hu with h | h
    · subst h; exact le_trans (le_max_right _ _) (le_foldl_max _ _)
    · exact ih h _

/-- Every rank in the table is at most `df["custom_sort_index"].max()`. -/
theorem le_maxRank (ts : List Task) (u : Task) (hu : u ∈ ts) :
    u.custom_sort_index ≤ maxRank ts := by
  match ts, hu with
  | t :: rest, hu =>
    rcases List.mem_cons.mp hu with h | h
    · subst h; exact le_foldl_max rest _
    · exact mem_le_foldl_max rest u h _

theorem promoteStep_length (D : String) (ts : List Task) :
    (promoteStep D ts).length = ts.length := by
  unfold promoteStep
  split
  · simp
  · rfl

theorem carriedStep_length (D : String) (ts : List Task) :
    (carriedStep D ts).length = ts.length := by
  unfold carriedStep
  split
  · simp
  · rfl

theorem promoteStep_getElem (D : String) (ts : List Task) (i : Nat)
    (hi : i < ts.length) (hi2 : i < (promoteStep D ts).length) :
    (promoteStep D ts)[i] =
      (if maskPromote D ts[i] then
        { ts[i] with priority := "High", was_auto_promoted := true,
                     custom_sort_index := maxRank ts + 1 }
      else ts[i]) := by
  by_cases h : ts.any (maskPromote D)
  · simp only [promoteStep, h, if_true, List.getElem_map]
  · have hall : ∀ x ∈ ts, ¬ maskPromote D x = true :=
      List.any_eq_false.mp (Bool.eq_false_iff.mpr h)
    have hmi : maskPromote D ts[i] = false :=
      Bool.eq_false_iff.mpr (hall ts[i] (List.getElem_mem hi))
    simp only [promoteStep, h, if_false, hmi, Bool.false_eq_true]

theorem carriedStep_getElem (D : String) (ts : List Task) (i : Nat)
    (hi : i < ts.length) (hi2 : i < (carriedStep D ts).length) :
    (carriedStep D ts)[i] =
      (if maskCarried D ts[i] then { ts[i] with was_auto_promoted := true }
      else ts[i]) := by
  by_cases h : ts.any (maskCarried D)
  · simp only [carriedStep, h, if_true, List.getElem_map]
  · have hall : ∀ x ∈ ts, ¬ maskCarried D x = true :=
      List.any_eq_false.mp (Bool.eq_false_iff.mpr h)
    have hmi : maskCarried D ts[i] = false :=
      Bool.eq_false_iff.mpr (hall ts[i] (List.getElem_mem hi))
    simp only [carriedStep, h, if_false, hmi, Bool.false_eq_true]

/-! ## Claim theorems -/

/-- C1: after the Auto-Promotion Policy runs for the first time in a session
with the date string `D` of the current day, every task in the Task Store that was
incomplete, had priority different from `"High"`, and whose first 10 `created_at` characters were non-empty and strictly less than `D`, ends with
`priority == "High"`, `was_auto_promoted == true`, and a custom sort rank
strictly greater than the maximum rank that existed before the run. -/
theorem run_auto_promote_promotes_stale (s : Session) (D : String)
    (df : List Task) (hdf : s.tasks_df = some df)
    (hran : s.auto_promote_ran = false) (i : Nat) (hi : i < df.length)
    (hc : df[i].completed = false) (hp : df[i].priority ≠ "High")
    (hne : df[i].created_at.take 10 ≠ "")
    (hlt : pyStrLt (df[i].created_at.take 10) D = true) :
    ∃ df', (run_auto_promote s D).1.tasks_df = some df' ∧
      df'.length = df.length ∧
      ∃ hi' : i < df'.length,
        (df'.get ⟨i, hi'⟩).priority = "High" ∧
        (df'.get ⟨i, hi'⟩).was_auto_promoted = true ∧
        ∀ j (hj : j < df.length),
          df[j].custom_sort_index < (df'.get ⟨i, hi'⟩).custom_sort_index := by
  have hmask : maskPromote D df[i] = true := by
    simp [maskPromote, hc, hlt, hp, hne]
  have hnil : df ≠ [] := by
    intro h; subst h; simp at hi
  have hempty : df.isEmpty = false := by
    simpa [List.isEmpty_iff] using hnil
  refine ⟨carriedStep D (promoteStep D df), ?_, ?_, ?_⟩
  · simp only [run_auto_promote, hdf, hran, hempty]
    rfl
  · rw [carriedStep_length, promoteStep_length]
  · have h1 : i < (promoteStep D df).length := by rw [promoteStep_length]; exact hi
    have h2 : i < (carriedStep D (promoteStep D df)).length := by
      rw [carriedStep_length, promoteStep_length]; exact hi
    refine ⟨h2, ?_⟩
    have hpe : (promoteStep D df)[i] =
        { df[i] with priority := "High", was_auto_promoted := true,
                     custom_sort_index := maxRank df + 1 } := by
      rw [promoteStep_getElem D df i hi h1, if_pos hmask]
    have hcm : maskCarried D (promoteStep D df)[i] = false := by
      rw [hpe]; simp [maskCarried]
    have hce : (carriedStep D (promoteStep D df)).get ⟨i, h2⟩ = (promoteStep D df)[i] := by
      show (carriedStep D (promoteStep D df))[i] = _
      rw [carriedStep_getElem D _ i h1 h2, if_neg (by simp [hcm])]
    rw [hce, hpe]
    refine ⟨rfl, rfl, ?_⟩
    intro j hj
    show df[j].custom_sort_index < maxRank df + 1
    have := le_maxRank df df[j] (List.getElem_mem hj)
    omega

/-- C1 witness: a concrete single-task store created yesterday at priority
Medium is promoted by the first policy run. -/
theorem run_auto_promote_promotes_stale_witness :
    ∃ df', (run_auto_promote w1s "2024-01-02").1.tasks_df = some df' ∧
      df'.length = [w1].length ∧
      ∃ hi' : 0 < df'.length,
        (df'.get ⟨0, hi'⟩).priority = "High" ∧
        (df'.get ⟨0, hi'⟩).was_auto_promoted = true ∧
        ∀ j (hj : j < [w1].length),
          [w1][j].custom_sort_index < (df'.get ⟨0, hi'⟩).custom_sort_index :=
  run_auto_promote_promotes_stale w1s "2024-01-02" [w1] rfl rfl 0 (by decide)
    (by decide) (by decide) (by decide) (by decide)

/-- C2: in any single run of the Auto-Promotion Policy, no task is affected
by both the promote rule and the carry-over rule: a row matched by
`mask_promote` is never matched by `mask_carried` (the latter being
evaluated, as in the code, on the table the promote rule already updated). -/
theorem promote_carry_exclusive (D : String) (ts : List Task) (i : Nat)
    (hi : i < ts.length) (hi2 : i < (promoteStep D ts).length) :
    ¬(maskPromote D ts[i] = true ∧ maskCarried D (promoteStep D ts)[i] = true) := by
  rintro ⟨h1, h2⟩
  rw [promoteStep_getElem D ts i hi hi2, if_pos h1] at h2
  simp [maskCarried] at h2

/-- C2 witness: the two masks are exclusive on the concrete store `[w1]`. -/
theorem promote_carry_exclusive_witness :
    ¬(maskPromote "2024-01-02" [w1][0] = true ∧
      maskCarried "2024-01-02" (promoteStep "2024-01-02" [w1])[0] = true) :=
  promote_carry_exclusive "2024-01-02" [w1] 0 (by decide) (by decide)

/-- C3: invoking the Auto-Promotion Policy a second time within the same
session produces no observable change: the second call returns the session
unchanged and triggers no remote write. -/
theorem run_auto_promote_second_run_noop (s : Session) (D : String) :
    run_auto_promote (run_auto_promote s D).1 D = ((run_auto_promote s D).1, false) := by
  match hdf : s.tasks_df with
  | none => simp [run_auto_promote, hdf]
  | some df =>
    match hr : s.auto_promote_ran with
    | true => simp [run_auto_promote, hdf, hr]
    | false =>
      match he : df.isEmpty with
      | true => simp [run_auto_promote, hdf, hr, he]
      | false => simp [run_auto_promote, hdf, hr, he]

/-- C6 (amended): a mutation (Toggle, Edit, Delete) whose target id is absent
from the Task Store is a silent no-op: the store is unchanged, no sync to the
remote occurs, and no warning is shown. -/
theorem absent_id_silent_noop (ts : List Task) (task_id : String)
    (current_val : Bool) (now new_text new_priority : String)
    (habs : ∀ t ∈ ts, t.id ≠ task_id) :
    toggle_complete ts task_id current_val now = ⟨ts, false, []⟩ ∧
    update_task_details ts task_id new_text new_priority = ⟨ts, false, []⟩ ∧
    delete_task ts task_id = ⟨ts, false, []⟩ := by
  have hany : ts.any (fun t => t.id == task_id) = false := by
    apply List.any_eq_false.mpr
    intro t ht
    simp [habs t ht]
  refine ⟨?_, ?_, ?_⟩ <;> simp [toggle_complete, update_task_details, delete_task, hany]

/-- C6 witness: the three mutations are silent no-ops on a store that does
not contain the target id. -/
theorem absent_id_silent_noop_witness :
    toggle_complete [w1] "absent-id" true "2024-01-02 09:00:00" = ⟨[w1], false, []⟩ ∧
    update_task_details [w1] "absent-id" "new" "Low" = ⟨[w1], false, []⟩ ∧
    delete_task [w1] "absent-id" = ⟨[w1], false, []⟩ :=
  absent_id_silent_noop [w1] "absent-id" true "2024-01-02 09:00:00" "new" "Low"
    (by decide)

/-- C6 counterexample: the claim as stated fails because no warning is
reported — `toggle_complete` on an absent id leaves the store unchanged and
skips the sync, but its warning list is empty. -/
theorem absent_id_warning_cex :
    ¬((toggle_complete [w1] "absent-id" true "2024-01-02 09:00:00").store = [w1] ∧
      (toggle_complete [w1] "absent-id" true "2024-01-02 09:00:00").didSync = false ∧
      (toggle_complete [w1] "absent-id" true "2024-01-02 09:00:00").warnings ≠ []) := by
  decide

/-- C7: the Auto-Promotion Policy never promotes or flags a task whose
`created_at` is the empty string: its priority, `was_auto_promoted` flag and
custom sort rank are unchanged by a policy run, regardless of its completed
state or priority, and regardless of whether the guard already fired. -/
theorem empty_created_at_untouched (s : Session) (D : String) (df : List Task)
    (hdf : s.tasks_df = some df) (i : Nat) (hi : i < df.length)
    (hemp : df[i].created_at = "") :
    ∃ df', (run_auto_promote s D).1.tasks_df = some df' ∧
      df'.length = df.length ∧
      ∃ hi' : i < df'.length,
        (df'.get ⟨i, hi'⟩).priority = df[i].priority ∧
        (df'.get ⟨i, hi'⟩).was_auto_promoted = df[i].was_auto_promoted ∧
        (df'.get ⟨i, hi'⟩).custom_sort_index = df[i].custom_sort_index := by
  have htake : (("" : String).take 10 != "") = false := by decide
  have hm1 : maskPromote D df[i] = false := by
    simp [maskPromote, hemp, htake]
  have hm2 : maskCarried D df[i] = false := by
    simp [maskCarried, hemp, htake]
  match hr : s.auto_promote_ran with
  | true =>
    refine ⟨df, by simp [run_auto_promote, hdf, hr], rfl, hi, rfl, rfl, rfl⟩
  | false =>
    have hnil : df ≠ [] := by intro h; subst h; simp at hi
    have hempty : df.isEmpty = false := by simpa [List.isEmpty_iff] using hnil
    have h1 : i < (promoteStep D df).length := by rw [promoteStep_length]; exact hi
    have h2 : i < (carriedStep D (promoteStep D df)).length := by
      rw [carriedStep_length, promoteStep_length]; exact hi
    refine ⟨carriedStep D (promoteStep D df), ?_, ?_, h2, ?_⟩
    · simp only [run_auto_promote, hdf, hr, hempty]
      rfl
    · rw [carriedStep_length, promoteStep_length]
    · have hpe : (promoteStep D df)[i] = df[i] := by
        rw [promoteStep_getElem D df i hi h1, if_neg (by simp [hm1])]
      have hce : (carriedStep D (promoteStep D df)).get ⟨i, h2⟩ = df[i] := by
        show (carriedStep D (promoteStep D df))[i] = _
        rw [carriedStep_getElem D _ i h1 h2, hpe, if_neg (by simp [hm2])]
      rw [hce]
      exact ⟨rfl, rfl, rfl⟩

/-- C7 witness: a completed Medium task with empty `created_at` keeps its
priority, flag and rank across a policy run. -/
theorem empty_created_at_untouched_witness :
    ∃ df', (run_auto_promote ⟨some [w7], false⟩ "2024-01-02").1.tasks_df = some df' ∧
      df'.length = [w7].length ∧
      ∃ hi' : 0 < df'.length,
        (df'.get ⟨0, hi'⟩).priority = [w7][0].priority ∧
        (df'.get ⟨0, hi'⟩).was_auto_promoted = [w7][0].was_auto_promoted ∧
        (df'.get ⟨0, hi'⟩).custom_sort_index = [w7][0].custom_sort_index :=
  empty_created_at_untouched ⟨some [w7], false⟩ "2024-01-02" [w7] rfl 0
    (by decide) (by decide)

/-- C9: `toggle_complete` determines the new completion state from the
caller-supplied `current_val`, not from the stored value: after the call,
every row carrying the target id has `completed = not current_val` and
`completed_at` equal to the fresh timestamp when that is true and `None`
otherwise, with no hypothesis on the previously stored `completed`. -/
theorem toggle_complete_uses_current_val (ts : List Task) (task_id : String)
    (current_val : Bool) (now : String) (i : Nat) (hi : i < ts.length)
    (hid : ts[i].id = task_id) :
    (toggle_complete ts task_id current_val now).store.length = ts.length ∧
    ∃ hi' : i < (toggle_complete ts task_id current_val now).store.length,
      ((toggle_complete ts task_id current_val now).store.get ⟨i, hi'⟩).completed
          = !current_val ∧
      ((toggle_complete ts task_id current_val now).store.get ⟨i, hi'⟩).completed_at
          = (if !current_val then some now else none) := by
  have hany : ts.any (fun t => t.id == task_id) = true :=
    List.any_eq_true.mpr ⟨ts[i], List.getElem_mem hi, by simp [hid]⟩
  have hlen : (toggle_complete ts task_id current_val now).store.length = ts.length := by
    simp [toggle_complete, hany]
  have hi' : i < (toggle_complete ts task_id current_val now).store.length := by
    rw [hlen]; exact hi
  have helem : (toggle_complete ts task_id current_val now).store.get ⟨i, hi'⟩ =
      { ts[i] with completed := !current_val,
                   completed_at := if !current_val then some now else none } := by
    show ((toggle_complete ts task_id current_val now).store)[i] = _
    simp only [toggle_complete, hany, if_true, List.getElem_map]
    rw [if_pos (by simp [hid])]
  exact ⟨hlen, hi', by rw [helem], by rw [helem]⟩

/-- C9 witness: toggling with `current_val = true` a row whose stored
`completed` is already `false` still produces `completed = false` (the stored
value is ignored; only the argument matters). -/
theorem toggle_complete_uses_current_val_witness :
    (toggle_complete [w1] "1" true "2024-01-02 09:00:00").store.length = [w1].length ∧
    ∃ hi' : 0 < (toggle_complete [w1] "1" true "2024-01-02 09:00:00").store.length,
      ((toggle_complete [w1] "1" true "2024-01-02 09:00:00").store.get ⟨0, hi'⟩).completed
          = !true ∧
      ((toggle_complete [w1] "1" true "2024-01-02 09:00:00").store.get ⟨0, hi'⟩).completed_at
          = (if !true then some "2024-01-02 09:00:00" else none) :=
  toggle_complete_uses_current_val [w1] "1" true "2024-01-02 09:00:00" 0
    (by decide) (by decide)

theorem map_applyItem_id (total : Int) (rank : Nat) (x : String) (ts : List Task)
    (h : ts.any (fun t => t.text == x && t.completed == false) = false) :
    ts.map (applyItem total rank x) = ts := by
  have hall := List.any_eq_false.mp h
  calc ts.map (applyItem total rank x) = ts.map id := by
        apply List.map_congr_left
        intro t ht
        have hc : (t.text == x && t.completed == false) = false :=
          Bool.eq_false_iff.mpr (hall t ht)
        show applyItem total rank x t = id t
        unfold applyItem
        rw [if_neg (by rw [hc]; exact Bool.false_ne_true)]
        rfl
    _ = ts := List.map_id ts

theorem sortLoop_eq_noGuard (total : Int) (l : List String) (rank : Nat)
    (ts : List Task) :
    sortLoop total rank l ts = sortLoopNG total rank l ts := by
  induction l generalizing rank ts with
  | nil => rfl
  | cons x rest ih =>
    by_cases h : ts.any (fun t => t.text == x && t.completed == false) = true
    · simp only [sortLoop, sortLoopNG, h, if_true]
      exact ih _ _
    · have hf : ts.any (fun t => t.text == x && t.completed == false) = false := by
        simpa using h
      simp only [sortLoop, sortLoopNG, hf, Bool.false_eq_true, if_false]
      rw [map_applyItem_id total rank x ts hf]
      exact ih _ _

theorem sortLoopNG_length (total : Int) (l : List String) (rank : Nat)
    (ts : List Task) :
    (sortLoopNG total rank l ts).length = ts.length := by
  induction l generalizing rank ts with
  | nil => rfl
  | cons x rest ih => simp [sortLoopNG, ih]

theorem sortLoopNG_getElem (total : Int) (l : List String) (rank : Nat)
    (ts : List Task) (i : Nat) (hi : i < ts.length)
    (hi2 : i < (sortLoopNG total rank l ts).length) :
    (sortLoopNG total rank l ts)[i] = sortLoop1 total rank l ts[i] := by
  induction l generalizing rank ts with
  | nil => rfl
  | cons x rest ih =>
    have hm : i < (ts.map (applyItem total rank x)).length := by simpa using hi
    have h2 : i < (sortLoopNG total (rank + 1) rest (ts.map (applyItem total rank x))).length := by
      rw [sortLoopNG_length]; simpa using hi
    show (sortLoopNG total (rank + 1) rest (ts.map (applyItem total rank x)))[i] = _
    rw [ih (rank + 1) (ts.map (applyItem total rank x)) hm h2, List.getElem_map]
    rfl

theorem applyItem_frame (total : Int) (rank : Nat) (x : String) (t : Task) :
    (applyItem total rank x t).id = t.id ∧
    (applyItem total rank x t).text = t.text ∧
    (applyItem total rank x t).priority = t.priority ∧
    (applyItem total rank x t).completed = t.completed ∧
    (applyItem total rank x t).created_at = t.created_at ∧
    (applyItem total rank x t).completed_at = t.completed_at ∧
    (applyItem total rank x t).was_auto_promoted = t.was_auto_promoted := by
  unfold applyItem
  split <;> exact ⟨rfl, rfl, rfl, rfl, rfl, rfl, rfl⟩

theorem sortLoop1_frame (total : Int) (l : List String) (rank : Nat) (t : Task) :
    (sortLoop1 total rank l t).id = t.id ∧
    (sortLoop1 total rank l t).text = t.text ∧
    (sortLoop1 total rank l t).priority = t.priority ∧
    (sortLoop1 total rank l t).completed = t.completed ∧
    (sortLoop1 total rank l t).created_at = t.created_at ∧
    (sortLoop1 total rank l t).completed_at = t.completed_at ∧
    (sortLoop1 total rank l t).was_auto_promoted = t.was_auto_promoted := by
  induction l generalizing rank t with
  | nil => exact ⟨rfl, rfl, rfl, rfl, rfl, rfl, rfl⟩
  | cons x rest ih =>
    obtain ⟨a1, a2, a3, a4, a5, a6, a7⟩ := applyItem_frame total rank x t
    obtain ⟨b1, b2, b3, b4, b5, b6, b7⟩ := ih (rank + 1) (applyItem total rank x t)
    exact ⟨b1.trans a1, b2.trans a2, b3.trans a3, b4.trans a4, b5.trans a5,
      b6.trans a6, b7.trans a7⟩

theorem sortLoop1_completed_noop (total : Int) (l : List String) (rank : Nat)
    (t : Task) (h : t.completed = true) :
    sortLoop1 total rank l t = t := by
  induction l generalizing rank with
  | nil => rfl
  | cons x rest ih =>
    have ha : applyItem total rank x t = t := by
      unfold applyItem; rw [if_neg (by simp [h])]
    show sortLoop1 total (rank + 1) rest (applyItem total rank x t) = t
    rw [ha]
    exact ih (rank + 1)

theorem sortLoop1_notmem_noop (total : Int) (l : List String) (rank : Nat)
    (t : Task) (h : ∀ x ∈ l, x ≠ t.text) :
    sortLoop1 total rank l t = t := by
  induction l generalizing rank with
  | nil => rfl
  | cons x rest ih =>
    have hx : (t.text == x) = false := by
      have hne := h x (List.mem_cons_self x rest)
      simp only [beq_eq_false_iff_ne, ne_eq]
      intro he
      exact hne he.symm
    have ha : applyItem total rank x t = t := by
      unfold applyItem; rw [if_neg (by simp [hx])]
    show sortLoop1 total (rank + 1) rest (applyItem total rank x t) = t
    rw [ha]
    exact ih (rank + 1) (fun y hy => h y (List.mem_cons_of_mem x hy))

theorem applyItem_set_rank (total : Int) (rank : Nat) (x : String) (t : Task)
    (c : Int) :
    { applyItem total rank x t with custom_sort_index := c } =
    { t with custom_sort_index := c } := by
  unfold applyItem
  split <;> rfl

theorem sortLoop1_last_occurrence (total : Int) (l : List String) :
    ∀ (rank i : Nat) (t : Task) (hi : i < l.length),
    t.completed = false → l[i] = t.text →
    (∀ j (hj : j < l.length), i < j → l[j] ≠ t.text) →
    sortLoop1 total rank l t =
      { t with custom_sort_index := total - ((rank + i : Nat) : Int) } := by
  induction l with
  | nil => intro rank i t hi; simp at hi
  | cons x rest ih =>
    intro rank i t hi hc hx hlater
    match i with
    | 0 =>
      have hxx : (t.text == x) = true := by
        have : x = t.text := hx
        simp [this]
      have ha : applyItem total rank x t =
          { t with custom_sort_index := total - (rank : Int) } := by
        unfold applyItem; rw [if_pos (by simp [hxx, hc])]
      show sortLoop1 total (rank + 1) rest (applyItem total rank x t) = _
      rw [ha]
      have hnot : ∀ y ∈ rest,
          y ≠ ({ t with custom_sort_index := total - (rank : Int) } : Task).text := by
        intro y hy
        obtain ⟨j, hj, hje⟩ := List.getElem_of_mem hy
        subst hje
        exact hlater (j + 1) (by simpa using Nat.succ_lt_succ hj) (Nat.succ_pos j)
      rw [sortLoop1_notmem_noop total rest (rank + 1) _ hnot]
      simp
    | i' + 1 =>
      show sortLoop1 total (rank + 1) rest (applyItem total rank x t) = _
      obtain ⟨a1, a2, a3, a4, a5, a6, a7⟩ := applyItem_frame total rank x t
      have hri : i' < rest.length := by simpa using hi
      have hstep := ih (rank + 1) i' (applyItem total rank x t) hri
        (by rw [a4]; exact hc)
        (by rw [a2]; exact hx)
        (by
          intro j hj hlt
          rw [a2]
          exact hlater (j + 1) (by simpa using Nat.succ_lt_succ hj)
            (Nat.succ_lt_succ hlt))
      rw [hstep, applyItem_set_rank]
      have harith : (rank + 1 + i' : Nat) = rank + (i' + 1) := by omega
      rw [harith]

/-- C10 (amended): `handle_sort_change` matches rows by task text restricted
to incomplete tasks, not by id: for a supplied ordered list of length `n`,
every incomplete task whose text occurs in the list receives
`custom_sort_index = n - k` where `k` is the **last** position at which its
text occurs (duplicate-text incomplete tasks all receive that same rank),
while completed tasks and tasks whose text does not appear in the list keep
their `custom_sort_index`, and every task keeps all other fields. -/
theorem handle_sort_change_spec (ts : List Task) (l : List String) (i : Nat)
    (hi : i < ts.length) :
    (handle_sort_change ts l).store.length = ts.length ∧
    ∃ hi' : i < (handle_sort_change ts l).store.length,
      ((handle_sort_change ts l).store.get ⟨i, hi'⟩).id = ts[i].id ∧
      ((handle_sort_change ts l).store.get ⟨i, hi'⟩).text = ts[i].text ∧
      ((handle_sort_change ts l).store.get ⟨i, hi'⟩).priority = ts[i].priority ∧
      ((handle_sort_change ts l).store.get ⟨i, hi'⟩).completed = ts[i].completed ∧
      ((handle_sort_change ts l).store.get ⟨i, hi'⟩).created_at = ts[i].created_at ∧
      ((handle_sort_change ts l).store.get ⟨i, hi'⟩).completed_at = ts[i].completed_at ∧
      ((handle_sort_change ts l).store.get ⟨i, hi'⟩).was_auto_promoted
          = ts[i].was_auto_promoted ∧
      (ts[i].completed = true →
        (handle_sort_change ts l).store.get ⟨i, hi'⟩ = ts[i]) ∧
      ((∀ x ∈ l, x ≠ ts[i].text) →
        (handle_sort_change ts l).store.get ⟨i, hi'⟩ = ts[i]) ∧
      (∀ k (hk : k < l.length), ts[i].completed = false → l[k] = ts[i].text →
        (∀ m (hm : m < l.length), k < m → l[m] ≠ ts[i].text) →
        ((handle_sort_change ts l).store.get ⟨i, hi'⟩).custom_sort_index
          = (l.length : Int) - (k : Int)) := by
  have hng : (handle_sort_change ts l).store = sortLoopNG (l.length : Int) 0 l ts := by
    show sortLoop (l.length : Int) 0 l ts = _
    exact sortLoop_eq_noGuard _ _ _ _
  have hlen : (handle_sort_change ts l).store.length = ts.length := by
    rw [hng, sortLoopNG_length]
  have hi' : i < (handle_sort_change ts l).store.length := by rw [hlen]; exact hi
  have helem : (handle_sort_change ts l).store.get ⟨i, hi'⟩ =
      sortLoop1 (l.length : Int) 0 l ts[i] := by
    show ((handle_sort_change ts l).store)[i] = _
    have hb : i < (sortLoopNG (l.length : Int) 0 l ts).length := by
      rw [sortLoopNG_length]; exact hi
    rw [List.getElem_of_eq hng hi']
    exact sortLoopNG_getElem (l.length : Int) l 0 ts i hi hb
  obtain ⟨f1, f2, f3, f4, f5, f6, f7⟩ := sortLoop1_frame (l.length : Int) l 0 ts[i]
  refine ⟨hlen, hi', ?_, ?_, ?_, ?_, ?_, ?_, ?_, ?_, ?_, ?_⟩
  · rw [helem]; exact f1
  · rw [helem]; exact f2
  · rw [helem]; exact f3
  · rw [helem]; exact f4
  · rw [helem]; exact f5
  · rw [helem]; exact f6
  · rw [helem]; exact f7
  · intro hc
    rw [helem]
    exact sortLoop1_completed_noop _ _ _ _ hc
  · intro hnm
    rw [helem]
    exact sortLoop1_notmem_noop _ _ _ _ hnm
  · intro k hk hc hkx hlast
    rw [helem, sortLoop1_last_occurrence (l.length : Int) l 0 k ts[i] hk hc hkx hlast]
    simp

/-- C10 witness: on a single incomplete task with text `"a"` and the list
`["b", "a"]`, the rank of the task becomes `2 - 1 = 1` (the last — and
only — occurrence is position 1), and all other fields are preserved. -/
theorem handle_sort_change_spec_witness :
    (handle_sort_change [w10] ["b", "a"]).store.length = [w10].length ∧
    ∃ hi' : 0 < (handle_sort_change [w10] ["b", "a"]).store.length,
      ((handle_sort_change [w10] ["b", "a"]).store.get ⟨0, hi'⟩).id = [w10][0].id ∧
      ((handle_sort_change [w10] ["b", "a"]).store.get ⟨0, hi'⟩).text = [w10][0].text ∧
      ((handle_sort_change [w10] ["b", "a"]).store.get ⟨0, hi'⟩).priority = [w10][0].priority ∧
      ((handle_sort_change [w10] ["b", "a"]).store.get ⟨0, hi'⟩).completed = [w10][0].completed ∧
      ((handle_sort_change [w10] ["b", "a"]).store.get ⟨0, hi'⟩).created_at = [w10][0].created_at ∧
      ((handle_sort_change [w10] ["b", "a"]).store.get ⟨0, hi'⟩).completed_at = [w10][0].completed_at ∧
      ((handle_sort_change [w10] ["b", "a"]).store.get ⟨0, hi'⟩).was_auto_promoted
          = [w10][0].was_auto_promoted ∧
      ([w10][0].completed = true →
        (handle_sort_change [w10] ["b", "a"]).store.get ⟨0, hi'⟩ = [w10][0]) ∧
      ((∀ x ∈ ["b", "a"], x ≠ [w10][0].text) →
        (handle_sort_change [w10] ["b", "a"]).store.get ⟨0, hi'⟩ = [w10][0]) ∧
      (∀ k (hk : k < (["b", "a"] : List String).length),
        [w10][0].completed = false → (["b", "a"] : List String)[k] = [w10][0].text →
        (∀ m (hm : m < (["b", "a"] : List String).length), k < m →
          (["b", "a"] : List String)[m] ≠ [w10][0].text) →
        ((handle_sort_change [w10] ["b", "a"]).store.get ⟨0, hi'⟩).custom_sort_index
          = ((["b", "a"] : List String).length : Int) - (k : Int)) :=
  handle_sort_change_spec [w10] ["b", "a"] 0 (by decide)

/-- C10 counterexample: the claim as stated fails when the supplied list
contains the same text twice — with store `[w10]` (incomplete, text `"a"`,
rank 5) and list `["a", "a"]`, position 0 also holds `"a"`, so the claim
demands rank `2 - 0 = 2`, but the code leaves the row at rank `2 - 1 = 1`
(the last assignment wins). -/
theorem handle_sort_change_position_cex :
    ¬(∀ k, ∀ hk : k < (["a", "a"] : List String).length,
        (["a", "a"] : List String)[k] = w10.text →
        ((handle_sort_change [w10] ["a", "a"]).store.get
            ⟨0, by decide⟩).custom_sort_index
          = ((["a", "a"] : List String).length : Int) - (k : Int)) := by
  intro h
  have h0 := h 0 (by decide) rfl
  exact absurd h0 (by decide)

theorem backfillSort_length (col : List RawCell) :
    (backfillSort col).length = col.length := by
  unfold backfillSort
  split
  · rw [List.length_map, List.length_range]
  · split
    · rw [List.length_map]
    · rfl

theorem backfillSort_of_no_null (col : List RawCell)
    (h : ∀ c ∈ col, c.isnull = false) :
    backfillSort col = col := by
  cases col with
  | nil => rfl
  | cons c cs =>
    have hc : c.isnull = false := h c (List.mem_cons_self c cs)
    have hall : ((c :: cs).all (fun x => x.isnull) && !(c :: cs).isEmpty) = false := by
      simp [List.all_cons, hc]
    have hany : (c :: cs).any (fun x => x.isnull) = false :=
      List.any_eq_false.mpr (fun y hy => by simp [h y hy])
    unfold backfillSort
    rw [if_neg (by rw [hall]; exact Bool.false_ne_true),
      if_neg (by rw [hany]; exact Bool.false_ne_true)]

theorem normalize_length (rows : List RawRow) :
    (normalize rows).length = rows.length := by
  unfold normalize
  rw [List.length_zipWith, backfillSort_length, List.length_map, min_self]

theorem normalize_getElem (rows : List RawRow) (i : Nat) (hi : i < rows.length)
    (hi2 : i < (normalize rows).length)
    (hb : i < (backfillSort (rows.map (fun r => r.custom_sort_index))).length) :
    (normalize rows)[i] = normalizeRow rows[i]
      (backfillSort (rows.map (fun r => r.custom_sort_index)))[i] := by
  simp only [normalize, List.getElem_zipWith]

theorem coerce_created_at_idem (c : RawCell) :
    coerce_created_at (coerce_created_at c) = coerce_created_at c := by
  by_cases h : (c.pyStr == "nan") = true
  · have h1 : coerce_created_at c = .str "" := by
      unfold coerce_created_at; rw [if_pos h]
    rw [h1]
    rfl
  · have h' : (c.pyStr == "nan") = false := by simpa using h
    have h1 : coerce_created_at c = .str c.pyStr := by
      unfold coerce_created_at
      rw [if_neg (by rw [h']; exact Bool.false_ne_true)]
    rw [h1]
    show RawCell.str (if (c.pyStr == "nan") = true then "" else c.pyStr) = _
    rw [if_neg (by rw [h']; exact Bool.false_ne_true)]

theorem coerce_completed_at_idem_of_ne (c : RawCell) (h : c.pyStr ≠ "nan") :
    coerce_completed_at (coerce_completed_at c) = coerce_completed_at c := by
  have h' : (c.pyStr == "nan") = false := beq_eq_false_iff_ne.mpr h
  have h1 : coerce_completed_at c = .str c.pyStr := by
    unfold coerce_completed_at
    rw [if_neg (by rw [h']; exact Bool.false_ne_true)]
  rw [h1]
  show (if (c.pyStr == "nan") = true then RawCell.pynone else RawCell.str c.pyStr) = _
  rw [if_neg (by rw [h']; exact Bool.false_ne_true)]

/-- Second application of the row coercions is the identity, provided the
original `completed_at` cell does not print as `"nan"`. -/
theorem normalizeRow_idem (r : RawRow) (c : RawCell)
    (hca : r.completed_at.pyStr ≠ "nan") :
    normalizeRow (normalizeRow r c) ((normalizeRow r c).custom_sort_index) =
      normalizeRow r c := by
  unfold normalizeRow
  simp only [coerce_created_at_idem, coerce_completed_at_idem_of_ne r.completed_at hca]
  rfl

/-- C4 (amended): the schema normalization is idempotent on every column
except `completed_at`: `normalize (normalize T) = normalize T` holds for
every raw table whose `completed_at` cells do not stringify to `"nan"` (i.e.
are neither a missing value nor the literal string `"nan"`).  For such cells
idempotence fails: one application maps them to null, and a second turns
that null into the string `"None"`. -/
theorem normalize_idempotent_of_clean_completed_at (rows : List RawRow)
    (h : ∀ r ∈ rows, r.completed_at.pyStr ≠ "nan") :
    normalize (normalize rows) = normalize rows := by
  have hfix : backfillSort ((normalize rows).map (fun r => r.custom_sort_index)) =
      (normalize rows).map (fun r => r.custom_sort_index) := by
    apply backfillSort_of_no_null
    intro c hc
    obtain ⟨r', hr', hre⟩ := List.mem_map.mp hc
    obtain ⟨j, hj, hje⟩ := List.getElem_of_mem hr'
    have hjr : j < rows.length := by rw [normalize_length] at hj; exact hj
    have hbj : j < (backfillSort (rows.map (fun r => r.custom_sort_index))).length := by
      rw [backfillSort_length, List.length_map]; exact hjr
    rw [← hre, ← hje, normalize_getElem rows j hjr hj hbj]
    rfl
  apply List.ext_getElem
  · rw [normalize_length, normalize_length]
  intro i h1 h2
  have hiN : i < (normalize rows).length := by
    rw [normalize_length] at h1 ⊢
    rw [normalize_length] at h1
    exact h1
  have hir : i < rows.length := by rw [normalize_length] at hiN; exact hiN
  have hbN : i < (backfillSort ((normalize rows).map (fun r => r.custom_sort_index))).length := by
    rw [backfillSort_length, List.length_map]; exact hiN
  have hbr : i < (backfillSort (rows.map (fun r => r.custom_sort_index))).length := by
    rw [backfillSort_length, List.length_map]; exact hir
  have hmN : i < ((normalize rows).map (fun r => r.custom_sort_index)).length := by
    rw [List.length_map]; exact hiN
  rw [normalize_getElem (normalize rows) i hiN h1 hbN,
    normalize_getElem rows i hir h2 hbr,
    List.getElem_of_eq hfix hbN, List.getElem_map,
    normalize_getElem rows i hir hiN hbr]
  exact normalizeRow_idem rows[i] _ (h rows[i] (List.getElem_mem hir))

/-- C4 witness: idempotence on a concrete one-row table whose `completed_at`
is a genuine timestamp string. -/
theorem normalize_idempotent_witness :
    normalize (normalize [w4ok]) = normalize [w4ok] :=
  normalize_idempotent_of_clean_completed_at [w4ok] (by decide)

/-- C4 counterexample: on a one-row table whose `completed_at` is a missing
value (`NaN`), normalization is not idempotent — the first application turns
the cell into null (`astype(str)` gives `"nan"`, then
`replace("nan", None)`), and the second turns that null into the string
`"None"`. -/
theorem normalize_not_idempotent_cex :
    normalize (normalize [w4nan]) ≠ normalize [w4nan] := by decide

theorem retryAux_transient_chain {α : Type} (func : Nat → Except String α)
    (jitter : Nat → ℚ) :
    ∀ (k start fuel : Nat), k ≤ fuel →
    (∀ i, i < k → ∃ e, func (start + i) = Except.error e ∧ is_transient e = true) →
    retryAux func jitter start fuel =
      ((retryAux func jitter (start + k) (fuel - k)).1,
       ((List.range k).map (fun i => (2 : ℚ) ^ (start + i) + jitter (start + i))) ++
         (retryAux func jitter (start + k) (fuel - k)).2) := by
  intro k
  induction k with
  | zero =>
    intro start fuel _ _
    simp
  | succ k ihk =>
    intro start fuel hk H
    obtain ⟨f', rfl⟩ : ∃ f', fuel = f' + 1 := ⟨fuel - 1, by omega⟩
    obtain ⟨e0, he0, ht0⟩ := H 0 (Nat.succ_pos k)
    rw [Nat.add_zero] at he0
    have hstep : retryAux func jitter start (f' + 1) =
        ((retryAux func jitter (start + 1) f').1,
         ((2 : ℚ) ^ start + jitter start) :: (retryAux func jitter (start + 1) f').2) := by
      simp only [retryAux, he0, ht0, if_true]
    rw [hstep,
      ihk (start + 1) f' (by omega) (fun i hi => by
        obtain ⟨e, he, ht⟩ := H (i + 1) (Nat.succ_lt_succ hi)
        exact ⟨e, by rw [show start + 1 + i = start + (i + 1) by omega]; exact he, ht⟩)]
    have hidx : start + 1 + k = start + (k + 1) := by omega
    have hfuel : f' - k = f' + 1 - (k + 1) := by omega
    rw [hidx, hfuel]
    refine congrArg (Prod.mk _) ?_
    rw [List.range_succ_eq_map, List.map_cons, List.map_map]
    rw [Nat.add_zero, List.cons_append]
    refine congrArg (List.cons _) ?_
    refine congrArg (fun l => l ++ _) ?_
    apply List.map_congr_left
    intro a _
    have : start + 1 + a = start + (a + 1) := by omega
    simp [Function.comp, this]

/-- C5: for every operation run through the retry wrapper with the default
five attempts: a non-transient first error is propagated immediately with no
retry and no sleep; if the first `k` attempts fail transiently, a success or
a non-transient error at attempt `k` is returned after exactly the back-off
sleeps `2 ** i + jitter i` for `i < k`; and if all five attempts fail
transiently, a "service busy" error distinct from every original error is
raised after the five sleeps. -/
theorem retry_operation_spec {α : Type} (func : Nat → Except String α)
    (jitter : Nat → ℚ) (k : Nat) (hk : k ≤ 5)
    (H : ∀ i, i < k → ∃ e, func i = Except.error e ∧ is_transient e = true) :
    (∀ v, k < 5 → func k = Except.ok v →
      retry_operation func jitter = (.ok v, sleepList jitter k)) ∧
    (∀ e, k < 5 → func k = Except.error e → is_transient e = false →
      retry_operation func jitter = (.error e, sleepList jitter k)) ∧
    (k = 5 →
      retry_operation func jitter = (.error busyMsg, sleepList jitter 5) ∧
      ∀ i e, i < 5 → func i = Except.error e → e ≠ busyMsg) := by
  have hchain := retryAux_transient_chain func jitter k 0 5 hk
    (fun i hi => by simpa using H i hi)
  have hzero : ∀ i, (0 : Nat) + i = i := fun i => Nat.zero_add i
  simp only [Nat.zero_add] at hchain
  refine ⟨?_, ?_, ?_⟩
  · intro v hk5 hfk
    obtain ⟨m, hm⟩ : ∃ m, 5 - k = m + 1 := ⟨5 - k - 1, by omega⟩
    unfold retry_operation
    rw [hchain, hm]
    simp only [retryAux, hfk]
    simp [sleepList]
  · intro e hk5 hfk hnt
    obtain ⟨m, hm⟩ : ∃ m, 5 - k = m + 1 := ⟨5 - k - 1, by omega⟩
    unfold retry_operation
    rw [hchain, hm]
    simp only [retryAux, hfk, hnt, Bool.false_eq_true, if_false]
    simp [sleepList]
  · intro hk5
    subst hk5
    constructor
    · unfold retry_operation
      rw [hchain]
      simp only [Nat.sub_self, retryAux]
      simp [sleepList]
    · intro i e hi hfe
      obtain ⟨e', he', ht'⟩ := H i hi
      rw [hfe] at he'
      cases he'
      intro hcontra
      subst hcontra
      rw [show is_transient busyMsg = false from by decide] at ht'
      exact Bool.false_ne_true ht'

/-- C5 witness: an operation that always raises a rate-limit error (`"429"`)
exhausts the five attempts, sleeps the five exponential back-offs, and ends
with the "service busy" error — which differs from the original error. -/
theorem retry_operation_spec_witness :
    retry_operation (fun _ => (Except.error "429" : Except String Nat)) (fun _ => 0)
        = (.error busyMsg, sleepList (fun _ => 0) 5) ∧
      ∀ i e, i < 5 →
        (fun _ => (Except.error "429" : Except String Nat)) i = Except.error e →
        e ≠ busyMsg :=
  (retry_operation_spec (fun _ => (Except.error "429" : Except String Nat))
    (fun _ => 0) 5 (le_refl 5) (fun i hi => ⟨"429", rfl, by decide⟩)).2.2 rfl

/-- C8: when an in-memory table already exists and `force_refresh` is false,
`load_data` returns the cached table unchanged and performs no remote read
and no remote write, whatever the remote would have answered. -/
theorem load_data_cached (s : Session) (df : List Task) (remote : ReadResult)
    (hdf : s.tasks_df = some df) :
    load_data s false remote = (.ok (s, df), false, false) := by
  unfold load_data
  rw [hdf]

/-- C8 witness: a session caching `[w1]` is served from the cache even while
the remote read would fail. -/
theorem load_data_cached_witness :
    load_data w1s false (.err "boom") = (.ok (w1s, [w1]), false, false) :=
  load_data_cached w1s [w1] (.err "boom") rfl

end TaskTracker
